import Mathlib

/-!
Verification of the Heatwave Early Warning System analytics pipeline.

The repository's `src/Heatwave.py` is the Streamlit page that wires the
pipeline together; the pipeline functions themselves (`heat_index_c`,
`heat_risk_band`, `enforce_daily`, `forecast_location`, `compile_alerts`)
live in the repository's `heatwave` package, whose files are not available
here.  Where a definition below embeds one of those functions it is
modelled from the specification's description of that function, as noted
in its doc comment.  Tables are lists of records, calendar dates are day
numbers (`Nat`), and numeric columns are exact rationals (`ℚ`).
-/

namespace Heatwave

/-! ## Rational square root

The heat-index regression's dry-air correction term contains a square
root (`math.sqrt` in the reference implementation).  It is realised here
as a fixed-precision (10⁻⁶) rational square root built on `Nat.sqrt`, so
that every definition stays computable. -/

/-- Fixed-precision rational square root: the floor of the real square root
to 6 decimal places (0 on negative inputs). -/
def ratSqrt (q : ℚ) : ℚ :=
  ((Nat.sqrt (q.num.toNat * 10 ^ 12 / q.den) : ℚ)) / 10 ^ 6

theorem ratSqrt_nonneg (q : ℚ) : 0 ≤ ratSqrt q := by
  unfold ratSqrt; positivity

/-- The scaled radicand used inside `ratSqrt` under-approximates `q·10¹²`. -/
theorem ratSqrt_scaled_le (q : ℚ) (hq : 0 ≤ q) :
    ((q.num.toNat * 10 ^ 12 / q.den : ℕ) : ℚ) ≤ q * 10 ^ 12 := by
  set m : ℕ := q.num.toNat * 10 ^ 12 / q.den with hm
  have hden : 0 < q.den := q.pos
  have h1 : m * q.den ≤ q.num.toNat * 10 ^ 12 := Nat.div_mul_le_self _ _
  have h1' : ((m : ℚ)) * (q.den : ℚ) ≤ ((q.num.toNat : ℚ)) * 10 ^ 12 := by
    exact_mod_cast h1
  have hnum : ((q.num.toNat : ℚ)) = (q.num : ℚ) := by
    exact_mod_cast Int.toNat_of_nonneg (Rat.num_nonneg.mpr hq)
  have hq' : q * (q.den : ℚ) = (q.num : ℚ) := by
    rw [mul_comm]
    exact_mod_cast Rat.den_mul_eq_num q
  have hdenq : (0 : ℚ) < (q.den : ℚ) := by exact_mod_cast hden
  rw [hnum] at h1'
  have : (m : ℚ) * (q.den : ℚ) ≤ q * (q.den : ℚ) * 10 ^ 12 := by
    rw [hq']; exact h1'
  nlinarith [this, hdenq]

/-- The scaled radicand used inside `ratSqrt` over-approximates `q·10¹² − den`. -/
theorem ratSqrt_scaled_gt (q : ℚ) (hq : 0 ≤ q) :
    q * 10 ^ 12 < ((q.num.toNat * 10 ^ 12 / q.den : ℕ) : ℚ) + 1 := by
  set m : ℕ := q.num.toNat * 10 ^ 12 / q.den with hm
  have hden : 0 < q.den := q.pos
  have h1 : q.num.toNat * 10 ^ 12 < q.den * (m + 1) := by
    have hdm : q.den * m + q.num.toNat * 10 ^ 12 % q.den = q.num.toNat * 10 ^ 12 :=
      Nat.div_add_mod _ _
    have hmod : q.num.toNat * 10 ^ 12 % q.den < q.den := Nat.mod_lt _ hden
    calc q.num.toNat * 10 ^ 12 = q.den * m + q.num.toNat * 10 ^ 12 % q.den := hdm.symm
      _ < q.den * m + q.den := Nat.add_lt_add_left hmod _
      _ = q.den * (m + 1) := by ring
  have h1' : ((q.num.toNat : ℚ)) * 10 ^ 12 < (q.den : ℚ) * ((m : ℚ) + 1) := by
    exact_mod_cast h1
  have hnum : ((q.num.toNat : ℚ)) = (q.num : ℚ) := by
    exact_mod_cast Int.toNat_of_nonneg (Rat.num_nonneg.mpr hq)
  have hq' : q * (q.den : ℚ) = (q.num : ℚ) := by
    rw [mul_comm]
    exact_mod_cast Rat.den_mul_eq_num q
  have hdenq : (0 : ℚ) < (q.den : ℚ) := by exact_mod_cast hden
  rw [hnum, ← hq'] at h1'
  nlinarith [h1', hdenq]

/-- `ratSqrt` never overshoots: its square is at most the input. -/
theorem ratSqrt_sq_le (q : ℚ) (hq : 0 ≤ q) : (ratSqrt q) ^ 2 ≤ q := by
  set m : ℕ := q.num.toNat * 10 ^ 12 / q.den with hm
  have h1 : (Nat.sqrt m : ℕ) ^ 2 ≤ m := Nat.sqrt_le' m
  have h1' : ((Nat.sqrt m : ℚ)) ^ 2 ≤ (m : ℚ) := by exact_mod_cast h1
  have h2 : (m : ℚ) ≤ q * 10 ^ 12 := ratSqrt_scaled_le q hq
  unfold ratSqrt
  rw [← hm]
  rw [div_pow]
  rw [div_le_iff (by norm_num : (0:ℚ) < (10 ^ 6) ^ 2)]
  calc ((Nat.sqrt m : ℚ)) ^ 2 ≤ (m : ℚ) := h1'
    _ ≤ q * 10 ^ 12 := h2
    _ = q * (10 ^ 6) ^ 2 := by norm_num

/-- `ratSqrt` undershoots by less than 10⁻⁶: one more ulp squares past the input. -/
theorem ratSqrt_succ_sq_gt (q : ℚ) (hq : 0 ≤ q) : q < (ratSqrt q + 1 / 10 ^ 6) ^ 2 := by
  set m : ℕ := q.num.toNat * 10 ^ 12 / q.den with hm
  have h1 : m < (Nat.sqrt m).succ ^ 2 := Nat.lt_succ_sqrt' m
  have h1' : (m : ℚ) < ((Nat.sqrt m : ℚ) + 1) ^ 2 := by exact_mod_cast h1
  have h2 : q * 10 ^ 12 < (m : ℚ) + 1 := ratSqrt_scaled_gt q hq
  have h3 : (m : ℚ) + 1 ≤ ((Nat.sqrt m : ℚ) + 1) ^ 2 := by
    have : (m : ℚ) + 1 ≤ (((Nat.sqrt m).succ ^ 2 : ℕ) : ℚ) := by exact_mod_cast h1
    calc (m : ℚ) + 1 ≤ (((Nat.sqrt m).succ ^ 2 : ℕ) : ℚ) := this
      _ = ((Nat.sqrt m : ℚ) + 1) ^ 2 := by push_cast; ring
  unfold ratSqrt
  rw [← hm]
  have hlt : q * 10 ^ 12 < ((Nat.sqrt m : ℚ) + 1) ^ 2 := lt_of_lt_of_le h2 h3
  have hexp : ((Nat.sqrt m : ℚ)) / 10 ^ 6 + 1 / 10 ^ 6 = ((Nat.sqrt m : ℚ) + 1) / 10 ^ 6 := by
    ring
  rw [hexp, div_pow, lt_div_iff (by norm_num : (0:ℚ) < (10 ^ 6) ^ 2)]
  calc q * (10 ^ 6) ^ 2 = q * 10 ^ 12 := by norm_num
    _ < ((Nat.sqrt m : ℚ) + 1) ^ 2 := hlt

/-- A certified lower bound for `ratSqrt`: any `b ≥ 0` with `(b + 10⁻⁶)² ≤ q`
sits below `ratSqrt q`. -/
theorem ratSqrt_lower (q b : ℚ) (hq : 0 ≤ q) (hb : 0 ≤ b)
    (h : (b + 1 / 10 ^ 6) ^ 2 ≤ q) : b ≤ ratSqrt q := by
  have h1 : q < (ratSqrt q + 1 / 10 ^ 6) ^ 2 := ratSqrt_succ_sq_gt q hq
  have h2 : (b + 1 / 10 ^ 6) ^ 2 < (ratSqrt q + 1 / 10 ^ 6) ^ 2 := lt_of_le_of_lt h h1
  have h3 : b + 1 / 10 ^ 6 < ratSqrt q + 1 / 10 ^ 6 := by
    have hrs : 0 ≤ ratSqrt q + 1 / 10 ^ 6 := by
      have := ratSqrt_nonneg q; linarith
    exact lt_of_pow_lt_pow_left₀ 2 hrs h2
  linarith

/-! ## Heat Index Calculator -/

/-- Celsius to Fahrenheit. -/
def c2f (c : ℚ) : ℚ := c * 9 / 5 + 32

/-- Fahrenheit to Celsius. -/
def f2c (f : ℚ) : ℚ := (f - 32) * 5 / 9

/-- Clamp a rational into `[lo, hi]`. -/
def clampQ (lo hi x : ℚ) : ℚ := max lo (min hi x)

/-- Modelled from the spec: the simplified low-temperature averaging formula
of the NWS heat index, in Fahrenheit (`heatwave.metrics` is not in `src/`). -/
def hiSimpleF (t rh : ℚ) : ℚ :=
  (t + 61 + (t - 68) * (12 / 10) + rh * (94 / 1000)) / 2

/-- Modelled from the spec: the full Rothfusz heat-index regression
polynomial, in Fahrenheit (`heatwave.metrics` is not in `src/`). -/
def hiRegressionF (t rh : ℚ) : ℚ :=
  -(42379 / 1000) + (204901523 / 10 ^ 8) * t + (1014333127 / 10 ^ 8) * rh
    - (22475541 / 10 ^ 8) * t * rh - (683783 / 10 ^ 8) * t ^ 2
    - (5481717 / 10 ^ 8) * rh ^ 2 + (122874 / 10 ^ 8) * t ^ 2 * rh
    + (85282 / 10 ^ 8) * t * rh ^ 2 - (199 / 10 ^ 8) * t ^ 2 * rh ^ 2

/-- Modelled from the spec: the dry-air correction subtracted from the full
regression for `rh < 13` and `80 ≤ t ≤ 112` (Fahrenheit). -/
def dryAdjF (t rh : ℚ) : ℚ :=
  if rh < 13 ∧ 80 ≤ t ∧ t ≤ 112 then
    ((13 - rh) / 4) * ratSqrt ((17 - |t - 95|) / 17)
  else 0

/-- Modelled from the spec: the humid correction added to the full regression
for `rh > 85` and `80 ≤ t ≤ 87` (Fahrenheit). -/
def humidAdjF (t rh : ℚ) : ℚ :=
  if 85 < rh ∧ 80 ≤ t ∧ t ≤ 87 then ((rh - 85) / 10) * ((87 - t) / 5) else 0

/-- Modelled from the spec: `heat_index_c(tmax_c, rh_percent)` from
`heatwave.metrics` (not in `src/`).  Clamps humidity to `[0,100]`, converts
to Fahrenheit, uses the simplified averaging formula below 80 °F and the
full Rothfusz regression with dry/humid corrections at or above it, and
converts the result back to Celsius. -/
def heat_index_c (tmax_c rh_percent : ℚ) : ℚ :=
  if c2f tmax_c < 80 then f2c (hiSimpleF (c2f tmax_c) (clampQ 0 100 rh_percent))
  else
    f2c (hiRegressionF (c2f tmax_c) (clampQ 0 100 rh_percent)
      - dryAdjF (c2f tmax_c) (clampQ 0 100 rh_percent)
      + humidAdjF (c2f tmax_c) (clampQ 0 100 rh_percent))

/-! ## Risk Classifier -/

/-- Modelled from the spec: the heat-index band of `heat_risk_band`, before
the temperature overlay (`heatwave.metrics` is not in `src/`). -/
def bandByHI (hi : ℚ) : String :=
  if hi < 27 then "Safe"
  else if hi < 32 then "Caution"
  else if hi < 41 then "Extreme Caution"
  else if hi < 54 then "Danger"
  else "Extreme Danger"

/-- Modelled from the spec: the resolved risk level of `heat_risk_band`; the
temperature overlay replaces the heat-index band when it triggers. -/
def resolveLevel (hi tmax_c : ℚ) : String :=
  if 45 ≤ tmax_c then "Severe Heatwave"
  else if 40 ≤ tmax_c then "Heatwave"
  else bandByHI hi

/-- Display color for a resolved level (palette from `src/Heatwave.py`). -/
def riskColor (lv : String) : String :=
  if lv = "Safe" then "#808080"
  else if lv = "Caution" then "#f1c40f"
  else if lv = "Extreme Caution" then "#e67e22"
  else if lv = "Danger" then "#e74c3c"
  else if lv = "Extreme Danger" then "#8e0000"
  else if lv = "Heatwave" then "#e74c3c"
  else if lv = "Severe Heatwave" then "#8e0000"
  else ""

/-- Short advisory text for a resolved level. -/
def riskNote (lv : String) : String :=
  if lv = "Safe" then "No heat stress expected"
  else if lv = "Caution" then "Fatigue possible with prolonged exposure"
  else if lv = "Extreme Caution" then "Heat cramps and exhaustion possible"
  else if lv = "Danger" then "Heat exhaustion likely"
  else if lv = "Extreme Danger" then "Heat stroke imminent"
  else if lv = "Heatwave" then "Temperature trigger reached"
  else if lv = "Severe Heatwave" then "Severe temperature trigger reached"
  else ""

/-- Modelled from the spec: `heat_risk_band(heat_index_c, tmax_c)` from
`heatwave.metrics` (not in `src/`), returning (level, color, note). -/
def heat_risk_band (hi tmax_c : ℚ) : String × String × String :=
  (resolveLevel hi tmax_c, riskColor (resolveLevel hi tmax_c),
    riskNote (resolveLevel hi tmax_c))

/-- C1: for every heat-index value the temperature overlay replaces the
heat-index band whenever it triggers: `tmax_c ≥ 45` forces level
"Severe Heatwave" and `40 ≤ tmax_c < 45` forces level "Heatwave",
regardless of `heat_index_c`. -/
theorem overlay_replaces_band (hi tmax_c : ℚ) :
    (45 ≤ tmax_c → (heat_risk_band hi tmax_c).1 = "Severe Heatwave") ∧
      (40 ≤ tmax_c → tmax_c < 45 → (heat_risk_band hi tmax_c).1 = "Heatwave") := by
  constructor
  · intro h45
    simp [heat_risk_band, resolveLevel, if_pos h45]
  · intro h40 h45
    simp [heat_risk_band, resolveLevel, if_neg (not_le.mpr h45), if_pos h40]

theorem overlay_replaces_band_witness :
    (heat_risk_band 10 45).1 = "Severe Heatwave" ∧
      (heat_risk_band 10 42).1 = "Heatwave" :=
  ⟨(overlay_replaces_band 10 45).1 (by norm_num),
    (overlay_replaces_band 10 42).2 (by norm_num) (by norm_num)⟩

/-- C2: when the temperature overlay does not fire (`tmax_c < 40`),
`heat_risk_band` classifies every heat-index value into the fixed ordered
closed-below/open-above bands: `< 27` Safe, `[27,32)` Caution, `[32,41)`
Extreme Caution, `[41,54)` Danger, `≥ 54` Extreme Danger; in particular a
heat index of exactly 27 yields Caution. -/
theorem band_thresholds (hi tmax_c : ℚ) (hover : tmax_c < 40) :
    (hi < 27 → (heat_risk_band hi tmax_c).1 = "Safe") ∧
      (27 ≤ hi → hi < 32 → (heat_risk_band hi tmax_c).1 = "Caution") ∧
      (32 ≤ hi → hi < 41 → (heat_risk_band hi tmax_c).1 = "Extreme Caution") ∧
      (41 ≤ hi → hi < 54 → (heat_risk_band hi tmax_c).1 = "Danger") ∧
      (54 ≤ hi → (heat_risk_band hi tmax_c).1 = "Extreme Danger") := by
  have h45 : ¬ (45 ≤ tmax_c) := by linarith
  have h40 : ¬ (40 ≤ tmax_c) := by linarith
  simp only [heat_risk_band, resolveLevel, bandByHI, if_neg h45, if_neg h40]
  refine ⟨fun h => by rw [if_pos h], fun h1 h2 => ?_, fun h1 h2 => ?_,
    fun h1 h2 => ?_, fun h1 => ?_⟩
  · rw [if_neg (by linarith), if_pos h2]
  · rw [if_neg (by linarith), if_neg (by linarith), if_pos h2]
  · rw [if_neg (by linarith), if_neg (by linarith), if_neg (by linarith), if_pos h2]
  · rw [if_neg (by linarith), if_neg (by linarith), if_neg (by linarith),
      if_neg (by linarith)]

theorem band_thresholds_witness :
    (heat_risk_band 27 30).1 = "Caution" ∧ (heat_risk_band 26 30).1 = "Safe" :=
  ⟨(band_thresholds 27 30 (by norm_num)).2.1 (by norm_num) (by norm_num),
    (band_thresholds 26 30 (by norm_num)).1 (by norm_num)⟩

/-! ## Data model and row-wise classification

`src/Heatwave.py` lines 54–63: after normalization the table gets the
derived columns by per-row list comprehensions over `tmax_c`/`rh_percent`. -/

/-- One normalized observation row (one record per location and day). -/
structure DailyRow where
  location : String
  date : Nat
  tmax_c : ℚ
  rh_percent : ℚ
  deriving DecidableEq

/-- A classified observation row: the observation plus its derived columns. -/
structure CRow where
  location : String
  date : Nat
  tmax_c : ℚ
  rh_percent : ℚ
  heat_index_c : ℚ
  risk_level : String
  risk_color : String
  risk_note : String
  deriving DecidableEq

/-- Default row used with `List.getD`. -/
def d0 : DailyRow := ⟨"", 0, 0, 0⟩

/-- Row-wise derivation of `src/Heatwave.py` lines 59–63: the heat index from
this row's `tmax_c` and `rh_percent`, then the risk triple from that heat
index and this row's `tmax_c`. -/
def classifyRow (r : DailyRow) : CRow :=
  let hi := heat_index_c r.tmax_c r.rh_percent
  let band := heat_risk_band hi r.tmax_c
  ⟨r.location, r.date, r.tmax_c, r.rh_percent, hi, band.1, band.2.1, band.2.2⟩

/-- The per-row list comprehensions of `src/Heatwave.py` lines 59–63 as a map. -/
def classify (tbl : List DailyRow) : List CRow := tbl.map classifyRow

/-! ## Alert Compiler -/

/-- One emitted early-warning alert row. -/
structure Alert where
  location : String
  date : Nat
  tmax_c : ℚ
  rh_percent : ℚ
  heat_index_c : ℚ
  trigger_kind : String
  source : String
  deriving DecidableEq

/-- The two risk levels that trigger an alert. -/
def isAlertLevel (lv : String) : Bool := lv == "Heatwave" || lv == "Severe Heatwave"

/-- Build the alert for a selected classified row, tagging its provenance. -/
def mkAlert (src : String) (r : CRow) : Alert :=
  ⟨r.location, r.date, r.tmax_c, r.rh_percent, r.heat_index_c, r.risk_level, src⟩

/-- Modelled from the spec: `compile_alerts(classified_history,
classified_forecast)` from `heatwave.alerting` (not in `src/`).  Concatenates
the history rows (tagged "history") and the forecast rows (tagged
"forecast") in date order and keeps exactly the rows whose resolved
risk_level is "Heatwave" or "Severe Heatwave". -/
def compile_alerts (hist fc : List CRow) : List Alert :=
  (hist.map (fun r => (r, "history")) ++ fc.map (fun r => (r, "forecast"))).filterMap
    (fun p => if isAlertLevel p.1.risk_level then some (mkAlert p.2 p.1) else none)

/-- C3: for every pair of classified history and forecast tables, every row
emitted by `compile_alerts` carries a resolved risk level (its
`trigger_kind`) equal to "Heatwave" or "Severe Heatwave"; no other level is
ever emitted. -/
theorem compile_alerts_levels (hist fc : List CRow) (a : Alert)
    (ha : a ∈ compile_alerts hist fc) :
    a.trigger_kind = "Heatwave" ∨ a.trigger_kind = "Severe Heatwave" := by
  obtain ⟨p, _, hsome⟩ := List.mem_filterMap.mp ha
  by_cases h : isAlertLevel p.1.risk_level
  · rw [if_pos h] at hsome
    obtain rfl : mkAlert p.2 p.1 = a := Option.some_injective _ hsome
    have h' := h
    unfold isAlertLevel at h'
    rcases Bool.or_eq_true _ _ ▸ h' with h1 | h1
    · exact Or.inl (by simpa [mkAlert] using (beq_iff_eq.mp h1))
    · exact Or.inr (by simpa [mkAlert] using (beq_iff_eq.mp h1))
  · rw [if_neg h] at hsome
    exact absurd hsome (by simp)

/-- A classified row used as concrete input below. -/
def sampleHotRow : CRow :=
  ⟨"A", 0, 46, 50, 80, "Severe Heatwave", "#8e0000", "Severe temperature trigger reached"⟩

theorem compile_alerts_levels_witness :
    (mkAlert "history" sampleHotRow).trigger_kind = "Heatwave" ∨
      (mkAlert "history" sampleHotRow).trigger_kind = "Severe Heatwave" :=
  compile_alerts_levels [sampleHotRow] [] (mkAlert "history" sampleHotRow) (by
    simp [compile_alerts, sampleHotRow, isAlertLevel])

/-- A classified table is one whose derived columns really are the row-wise
derivations of `src/Heatwave.py` lines 59–63. -/
def WellClassified (r : CRow) : Prop :=
  r.heat_index_c = heat_index_c r.tmax_c r.rh_percent ∧
    r.risk_level = resolveLevel r.heat_index_c r.tmax_c

theorem wellClassified_classifyRow (r : DailyRow) : WellClassified (classifyRow r) :=
  ⟨rfl, rfl⟩

/-- The heat-index bands alone never produce a trigger level. -/
theorem isAlertLevel_bandByHI (hi : ℚ) : isAlertLevel (bandByHI hi) = false := by
  unfold bandByHI
  split_ifs <;> rfl

/-- The resolved level triggers an alert exactly when the temperature overlay
fires. -/
theorem isAlertLevel_resolveLevel (hi t : ℚ) :
    isAlertLevel (resolveLevel hi t) = true ↔ 40 ≤ t := by
  unfold resolveLevel
  by_cases h45 : 45 ≤ t
  · rw [if_pos h45]
    refine ⟨fun _ => by linarith, fun _ => rfl⟩
  · rw [if_neg h45]
    by_cases h40 : 40 ≤ t
    · rw [if_pos h40]
      exact ⟨fun _ => h40, fun _ => rfl⟩
    · rw [if_neg h40]
      rw [isAlertLevel_bandByHI]
      exact ⟨fun h => absurd h (by simp), fun h => absurd h h40⟩

/-- C4 (amended): for classified history and forecast tables, every alert
emitted by `compile_alerts` falls on a day where the temperature overlay
itself fired (`tmax_c ≥ 40`), so no alert is ever emitted for any other day
even when the heat index is high.  (The original claim's further assertion
that alert days are a strict subset of the Danger/Extreme-Danger
heat-index days is refuted by `alerts_not_danger_subset_cex`.) -/
theorem alerts_exactly_overlay_days (hist fc : List CRow)
    (hh : ∀ r ∈ hist, WellClassified r) (hf : ∀ r ∈ fc, WellClassified r)
    (a : Alert) (ha : a ∈ compile_alerts hist fc) : 40 ≤ a.tmax_c := by
  obtain ⟨p, hp, hsome⟩ := List.mem_filterMap.mp ha
  by_cases h : isAlertLevel p.1.risk_level
  · rw [if_pos h] at hsome
    obtain rfl : mkAlert p.2 p.1 = a := Option.some_injective _ hsome
    have hwc : WellClassified p.1 := by
      rcases List.mem_append.mp hp with hmem | hmem
      · obtain ⟨r, hr, rfl⟩ := List.mem_map.mp hmem
        exact hh r hr
      · obtain ⟨r, hr, rfl⟩ := List.mem_map.mp hmem
        exact hf r hr
    have : isAlertLevel (resolveLevel p.1.heat_index_c p.1.tmax_c) = true := by
      rw [← hwc.2]; exact h
    have := (isAlertLevel_resolveLevel _ _).mp this
    simpa [mkAlert] using this
  · rw [if_neg h] at hsome
    exact absurd hsome (by simp)

theorem alerts_exactly_overlay_days_witness :
    40 ≤ (mkAlert "history" (classifyRow ⟨"A", 0, 46, 0⟩)).tmax_c :=
  alerts_exactly_overlay_days [classifyRow ⟨"A", 0, 46, 0⟩] []
    (fun r hr => by
      rw [List.mem_singleton.mp hr]; exact wellClassified_classifyRow _)
    (fun r hr => absurd hr (List.not_mem_nil r))
    (mkAlert "history" (classifyRow ⟨"A", 0, 46, 0⟩)) (by
      have hlv : isAlertLevel (classifyRow ⟨"A", 0, 46, 0⟩).risk_level = true := by
        show isAlertLevel (resolveLevel (heat_index_c 46 0) 46) = true
        exact (isAlertLevel_resolveLevel (heat_index_c 46 0) 46).mpr (by norm_num)
      simp [compile_alerts, hlv])

/-- C4 (counterexample): a fully classified one-row history whose single day
triggers a "Severe Heatwave" alert (tmax 46 °C) while its heat-index band is
only "Extreme Caution" (dry air: heat index ≈ 39.3 °C); the emitted alert
day is therefore not among the Danger/Extreme-Danger heat-index days, so the
alert set is not a (strict) subset of those days. -/
theorem alerts_not_danger_subset_cex :
    compile_alerts [classifyRow ⟨"A", 0, 46, 0⟩] [] =
      [⟨"A", 0, 46, 0, heat_index_c 46 0, "Severe Heatwave", "history"⟩] ∧
      bandByHI (heat_index_c 46 0) = "Extreme Caution" := by
  constructor
  · have h45 : (45 : ℚ) ≤ 46 := by norm_num
    have hlv : (classifyRow ⟨"A", 0, 46, 0⟩).risk_level = "Severe Heatwave" := by
      show resolveLevel (heat_index_c 46 0) 46 = "Severe Heatwave"
      rw [resolveLevel, if_pos h45]
    simp [compile_alerts, hlv, isAlertLevel, mkAlert, classifyRow, heat_risk_band,
      resolveLevel, if_pos h45]
  · have hband : 32 ≤ heat_index_c 46 0 ∧ heat_index_c 46 0 < 41 := by
      norm_num [heat_index_c, c2f, f2c, clampQ, dryAdjF, humidAdjF, hiRegressionF]
    rw [bandByHI, if_neg (by linarith [hband.1]), if_neg (by linarith [hband.1]),
      if_pos hband.2]

/-- `getD` over a mapped list applies the function to the `getD` of the
original list, in or out of range. -/
theorem getD_map {α β : Type} (f : α → β) (l : List α) (j : Nat) (d : α) :
    (l.map f).getD j (f d) = f (l.getD j d) := by
  simp [List.getD, List.getElem?_map]

/-- C10: classification is row-local.  Each classified row is the per-row
application of `heat_index_c` and `heat_risk_band` to that row's `tmax_c`
and `rh_percent` alone, so whenever two normalized tables agree on row `j`
their classified tables agree on row `j`'s derived fields — changing any
other row's inputs cannot change row `j` (two-run noninterference). -/
theorem classify_row_local :
    (∀ r : DailyRow,
        (classifyRow r).heat_index_c = heat_index_c r.tmax_c r.rh_percent ∧
          (classifyRow r).risk_level =
            (heat_risk_band (heat_index_c r.tmax_c r.rh_percent) r.tmax_c).1 ∧
          (classifyRow r).risk_color =
            (heat_risk_band (heat_index_c r.tmax_c r.rh_percent) r.tmax_c).2.1 ∧
          (classifyRow r).risk_note =
            (heat_risk_band (heat_index_c r.tmax_c r.rh_percent) r.tmax_c).2.2) ∧
      ∀ (t1 t2 : List DailyRow) (j : Nat),
        t1.getD j d0 = t2.getD j d0 →
          (classify t1).getD j (classifyRow d0) = (classify t2).getD j (classifyRow d0) := by
  refine ⟨fun r => ⟨rfl, rfl, rfl, rfl⟩, fun t1 t2 j h => ?_⟩
  rw [classify, classify, getD_map, getD_map, h]

theorem classify_row_local_witness :
    (classify [⟨"A", 0, 30, 50⟩, ⟨"A", 1, 31, 51⟩]).getD 1 (classifyRow d0) =
      (classify [⟨"A", 0, 99, 10⟩, ⟨"A", 1, 31, 51⟩]).getD 1 (classifyRow d0) :=
  classify_row_local.2 [⟨"A", 0, 30, 50⟩, ⟨"A", 1, 31, 51⟩]
    [⟨"A", 0, 99, 10⟩, ⟨"A", 1, 31, 51⟩] 1 rfl

/-! ## Forecaster -/

/-- A single-location history/forecast row, as passed by `src/Heatwave.py`
line 99 (`df_loc[["date","tmax_c","rh_percent"]]`). -/
structure FRow where
  date : Nat
  tmax_c : ℚ
  rh_percent : ℚ
  deriving DecidableEq

/-- Default forecast row used with `List.getD`/`List.headD`. -/
def f0 : FRow := ⟨0, 0, 0⟩

/-- Trailing-trend window size: about a week, per the spec's default. -/
def trendWindow : Nat := 7

/-- The trailing window of the history used to fit the trend. -/
def trailTail (history : List FRow) : List FRow :=
  history.drop (history.length - trendWindow)

/-- Trailing-window slope of `tmax_c`: rise over the window divided by the
window span. -/
def trendSlope (history : List FRow) : ℚ :=
  ((history.getLastD f0).tmax_c - ((trailTail history).headD f0).tmax_c) /
    (((trailTail history).length : ℚ) - 1)

/-- Projected humidity: trailing mean mildly reverted toward the all-history
mean. -/
def rhProjection (history : List FRow) : ℚ :=
  (3 * (((trailTail history).map (·.rh_percent)).sum / ((trailTail history).length : ℚ)) +
      ((history.map (·.rh_percent)).sum) / (history.length : ℚ)) / 4

/-- The `i`-th projected row (`i = 0` is the day after the last history
date); projections are clamped to plausible ranges. -/
def forecastRow (base : FRow) (slope rhProj : ℚ) (i : Nat) : FRow :=
  ⟨base.date + i + 1, clampQ (-90) 60 (base.tmax_c + slope * ((i : ℚ) + 1)),
    clampQ 0 100 rhProj⟩

/-- Modelled from the spec: `forecast_location(history, horizon_days)` from
`heatwave.forecast` (not in `src/`).  Fails with `InsufficientHistoryError`
when the history has fewer than 2 rows; otherwise fits a trailing-window
slope for `tmax_c` and a trailing mean with mild reversion toward the
all-history mean for `rh_percent`, and projects `horizon` consecutive days
after the last history date, each row derived from the trend/mean alone. -/
def forecast_location (history : List FRow) (horizon : Nat) : Except String (List FRow) :=
  if history.length < 2 then Except.error "InsufficientHistoryError"
  else Except.ok ((List.range horizon).map
    (forecastRow (history.getLastD f0) (trendSlope history) (rhProjection history)))

/-- Reading a mapped range below its length yields the mapped function. -/
theorem getD_map_range {β : Type} (g : Nat → β) (n i : Nat) (d : β) (h : i < n) :
    ((List.range n).map g).getD i d = g i := by
  rw [List.getD_eq_getElem _ _ (by simpa using h)]
  simp

/-- C6: on a valid history (at least 2 rows, last date `D`) and a positive
horizon, `forecast_location` returns exactly `horizon` rows whose dates are
the consecutive days `D+1, D+2, …, D+horizon`, with no gaps: the first
forecast date is `D+1` and the last is `D+horizon`. -/
theorem forecast_date_continuity (history : List FRow) (horizon : Nat)
    (hlen : 2 ≤ history.length) (hpos : 0 < horizon) :
    ∃ fc : List FRow, forecast_location history horizon = Except.ok fc ∧
      fc.length = horizon ∧
      (∀ i, i < horizon → (fc.getD i f0).date = (history.getLastD f0).date + 1 + i) ∧
      (fc.getD 0 f0).date = (history.getLastD f0).date + 1 ∧
      (fc.getD (horizon - 1) f0).date = (history.getLastD f0).date + horizon := by
  have hnot : ¬ history.length < 2 := by omega
  rw [forecast_location, if_neg hnot]
  have hdate : ∀ i, i < horizon →
      (((List.range horizon).map
        (forecastRow (history.getLastD f0) (trendSlope history)
          (rhProjection history))).getD i f0).date =
        (history.getLastD f0).date + 1 + i := by
    intro i hi
    rw [getD_map_range _ _ _ _ hi]
    show (history.getLastD f0).date + i + 1 = _
    omega
  refine ⟨_, rfl, by simp, hdate, ?_, ?_⟩
  · have := hdate 0 hpos
    omega
  · have := hdate (horizon - 1) (by omega)
    omega

theorem forecast_date_continuity_witness :
    ∃ fc : List FRow,
      forecast_location [⟨10, 30, 50⟩, ⟨11, 32, 55⟩] 3 = Except.ok fc ∧
        fc.length = 3 ∧
        (∀ i, i < 3 → (fc.getD i f0).date =
          (([⟨10, 30, 50⟩, ⟨11, 32, 55⟩] : List FRow).getLastD f0).date + 1 + i) ∧
        (fc.getD 0 f0).date =
          (([⟨10, 30, 50⟩, ⟨11, 32, 55⟩] : List FRow).getLastD f0).date + 1 ∧
        (fc.getD (3 - 1) f0).date =
          (([⟨10, 30, 50⟩, ⟨11, 32, 55⟩] : List FRow).getLastD f0).date + 3 :=
  forecast_date_continuity [⟨10, 30, 50⟩, ⟨11, 32, 55⟩] 3 (by norm_num) (by norm_num)

/-- C7: `forecast_location` is deterministic — it is a pure function of the
history table and the horizon, so two calls on identical inputs (in
particular horizon 5) return identical output tables; no randomness is
involved. -/
theorem forecast_deterministic (h1 h2 : List FRow) (n1 n2 : Nat)
    (hh : h1 = h2) (hn : n1 = n2) :
    forecast_location h1 n1 = forecast_location h2 n2 := by
  rw [hh, hn]

theorem forecast_deterministic_witness :
    forecast_location [⟨0, 30, 50⟩, ⟨1, 31, 52⟩] 5 =
      forecast_location [⟨0, 30, 50⟩, ⟨1, 31, 52⟩] 5 :=
  forecast_deterministic [⟨0, 30, 50⟩, ⟨1, 31, 52⟩] [⟨0, 30, 50⟩, ⟨1, 31, 52⟩] 5 5
    rfl rfl

/-- C9: `forecast_location` fails with `InsufficientHistoryError` exactly
when the history has fewer than 2 rows; with 2 or more rows it returns a
forecast and never this error. -/
theorem insufficient_history_iff (history : List FRow) (horizon : Nat) :
    forecast_location history horizon = Except.error "InsufficientHistoryError" ↔
      history.length < 2 := by
  constructor
  · intro h
    by_contra hlen
    rw [forecast_location, if_neg hlen] at h
    exact absurd h (by simp)
  · intro hlen
    rw [forecast_location, if_pos hlen]

theorem insufficient_history_iff_witness :
    forecast_location [⟨0, 30, 50⟩] 5 = Except.error "InsufficientHistoryError" :=
  (insufficient_history_iff [⟨0, 30, 50⟩] 5).mpr (by norm_num)

/-! ## Normalizer: daily aggregation -/

/-- A raw input row: the date column may still carry a time of day, here a
timestamp in seconds; truncation to the day is integer division. -/
structure RawRow where
  location : String
  datetime : Nat
  tmax_c : ℚ
  rh_percent : ℚ
  deriving DecidableEq

/-- Seconds per day, for truncating timestamps to calendar days. -/
def secPerDay : Nat := 86400

/-- The calendar day of a raw row (date truncated to day). -/
def dayOf (r : RawRow) : Nat := r.datetime / secPerDay

/-- All rows of the table belonging to one (location, day) group. -/
def groupRows (tbl : List RawRow) (loc : String) (d : Nat) : List RawRow :=
  tbl.filter (fun r => r.location == loc && dayOf r == d)

/-- Maximum of a list of rationals (0 on the empty list, which aggregation
never hits: groups are built from occurring keys). -/
def listMax : List ℚ → ℚ
  | [] => 0
  | x :: xs => xs.foldl max x

/-- Arithmetic mean of a list of rationals. -/
def listMean (l : List ℚ) : ℚ := l.sum / (l.length : ℚ)

/-- The aggregated daily record of one (location, day) group: max of
`tmax_c`, mean of `rh_percent`. -/
def aggRow (tbl : List RawRow) (loc : String) (d : Nat) : DailyRow :=
  ⟨loc, d, listMax ((groupRows tbl loc d).map (·.tmax_c)),
    listMean ((groupRows tbl loc d).map (·.rh_percent))⟩

/-- The distinct locations of the table, in order of first appearance. -/
def locKeys (tbl : List RawRow) : List String := (tbl.map (·.location)).dedup

/-- The distinct days observed for one location, sorted ascending. -/
def dayKeys (tbl : List RawRow) (loc : String) : List Nat :=
  (((tbl.filter (fun r => r.location == loc)).map dayOf).dedup).insertionSort (· ≤ ·)

/-- Modelled from the spec: `enforce_daily(table)` from `heatwave.utils`
(not in `src/`).  Groups rows by (location, date truncated to day),
aggregates each group by the max of `tmax_c` and the mean of `rh_percent`,
and sorts ascending by date within each location. -/
def enforce_daily (tbl : List RawRow) : List DailyRow :=
  (locKeys tbl).flatMap (fun loc => (dayKeys tbl loc).map (aggRow tbl loc))

/-- Every row a location-keyed block list emits for key `k` carries
location `k`, so filtering the concatenation by one location selects
exactly that location's block. -/
theorem filter_flatMap_blocks (ks : List String) (f : String → List DailyRow)
    (hf : ∀ k, ∀ row ∈ f k, row.location = k) (hnd : ks.Nodup) (loc : String) :
    (ks.flatMap f).filter (fun row => row.location == loc) =
      if loc ∈ ks then f loc else [] := by
  induction ks with
  | nil => simp
  | cons k ks ih =>
    have hnd' : ks.Nodup := (List.nodup_cons.mp hnd).2
    have hknotin : k ∉ ks := (List.nodup_cons.mp hnd).1
    rw [List.flatMap_cons, List.filter_append]
    by_cases hk : k = loc
    · subst hk
      have h1 : (f k).filter (fun row => row.location == k) = f k :=
        List.filter_eq_self.mpr (fun row hrow => by
          simp [hf k row hrow])
      have h2 : (ks.flatMap f).filter (fun row => row.location == k) = [] := by
        rw [ih hnd', if_neg hknotin]
      rw [h1, h2, if_pos (List.mem_cons_self k ks), List.append_nil]
    · have h1 : (f k).filter (fun row => row.location == loc) = [] := by
        rw [List.filter_eq_nil_iff]
        intro row hrow
        simp [hf k row hrow, hk]
      rw [h1, List.nil_append, ih hnd']
      by_cases hmem : loc ∈ ks
      · rw [if_pos hmem, if_pos (List.mem_cons_of_mem _ hmem)]
      · rw [if_neg hmem, if_neg (by
          intro hcon
          rcases List.mem_cons.mp hcon with h | h
          · exact hk h.symm
          · exact hmem h)]

/-- C8: `enforce_daily` groups by (location, day), aggregates each group by
the max of `tmax_c` and the mean of `rh_percent`, keeps a group for every
input row's key, and sorts ascending by date within each location; in
particular two same-day rows for one location with `tmax_c` 30/35 and
`rh_percent` 50/60 collapse to one row with `tmax_c = 35` and
`rh_percent = 55`. -/
theorem enforce_daily_spec :
    (∀ (tbl : List RawRow), ∀ row ∈ enforce_daily tbl,
        row.tmax_c = listMax ((groupRows tbl row.location row.date).map (·.tmax_c)) ∧
          row.rh_percent =
            listMean ((groupRows tbl row.location row.date).map (·.rh_percent)) ∧
          groupRows tbl row.location row.date ≠ []) ∧
      (∀ (tbl : List RawRow), ∀ r ∈ tbl, ∃ row ∈ enforce_daily tbl,
        row.location = r.location ∧ row.date = dayOf r) ∧
      (∀ (tbl : List RawRow) (loc : String),
        List.Sorted (· ≤ ·)
          (((enforce_daily tbl).filter (fun row => row.location == loc)).map (·.date))) ∧
      enforce_daily [⟨"A", 0, 30, 50⟩, ⟨"A", 3600, 35, 60⟩] = [⟨"A", 0, 35, 55⟩] := by
  have hblock : ∀ (tbl : List RawRow) (loc : String),
      ∀ row ∈ (dayKeys tbl loc).map (aggRow tbl loc), row.location = loc := by
    intro tbl loc row hrow
    obtain ⟨d, _, rfl⟩ := List.mem_map.mp hrow
    rfl
  refine ⟨?_, ?_, ?_, ?_⟩
  · intro tbl row hrow
    obtain ⟨loc, hloc, hrow2⟩ := List.mem_flatMap.mp hrow
    obtain ⟨d, hd, rfl⟩ := List.mem_map.mp hrow2
    refine ⟨rfl, rfl, ?_⟩
    have hd' : d ∈ ((tbl.filter (fun r => r.location == loc)).map dayOf).dedup :=
      ((List.perm_insertionSort (· ≤ ·) _).mem_iff).mp hd
    obtain ⟨r, hr, hrd⟩ := List.mem_map.mp (List.mem_dedup.mp hd')
    obtain ⟨hrt, hrl⟩ := List.mem_filter.mp hr
    intro hnil
    have : r ∈ groupRows tbl loc d := by
      rw [groupRows, List.mem_filter]
      exact ⟨hrt, by simp [beq_iff_eq.mp hrl, hrd]⟩
    rw [show (aggRow tbl loc d).location = loc from rfl,
      show (aggRow tbl loc d).date = d from rfl] at hnil
    rw [hnil] at this
    exact absurd this (List.not_mem_nil r)
  · intro tbl r hr
    refine ⟨aggRow tbl r.location (dayOf r), ?_, rfl, rfl⟩
    refine List.mem_flatMap.mpr ⟨r.location, ?_, ?_⟩
    · exact List.mem_dedup.mpr (List.mem_map.mpr ⟨r, hr, rfl⟩)
    · refine List.mem_map.mpr ⟨dayOf r, ?_, rfl⟩
      refine ((List.perm_insertionSort (· ≤ ·) _).mem_iff).mpr ?_
      refine List.mem_dedup.mpr (List.mem_map.mpr ⟨r, ?_, rfl⟩)
      rw [List.mem_filter]
      exact ⟨hr, by simp⟩
  · intro tbl loc
    rw [enforce_daily, filter_flatMap_blocks (locKeys tbl) _ (hblock tbl)
      (by rw [locKeys]; exact List.nodup_dedup _) loc]
    by_cases hmem : loc ∈ locKeys tbl
    · rw [if_pos hmem, List.map_map]
      have : ((·.date) ∘ aggRow tbl loc : Nat → Nat) = id := rfl
      rw [this, List.map_id]
      exact List.sorted_insertionSort (· ≤ ·) _
    · rw [if_neg hmem]
      simp
  · have h1 : enforce_daily [⟨"A", 0, 30, 50⟩, ⟨"A", 3600, 35, 60⟩] =
        [aggRow [⟨"A", 0, 30, 50⟩, ⟨"A", 3600, 35, 60⟩] "A" 0] := rfl
    have h2 : groupRows [⟨"A", 0, 30, 50⟩, ⟨"A", 3600, 35, 60⟩] "A" 0 =
        [⟨"A", 0, 30, 50⟩, ⟨"A", 3600, 35, 60⟩] := rfl
    rw [h1, aggRow, h2]
    norm_num [listMax, listMean, DailyRow.mk.injEq]

theorem enforce_daily_spec_witness :
    (aggRow [⟨"B", 0, 20, 40⟩] "B" 0).tmax_c =
        listMax ((groupRows [⟨"B", 0, 20, 40⟩] "B" 0).map (·.tmax_c)) ∧
      (aggRow [⟨"B", 0, 20, 40⟩] "B" 0).rh_percent =
        listMean ((groupRows [⟨"B", 0, 20, 40⟩] "B" 0).map (·.rh_percent)) ∧
      groupRows [⟨"B", 0, 20, 40⟩] "B" 0 ≠ [] :=
  enforce_daily_spec.1 [⟨"B", 0, 20, 40⟩] (aggRow [⟨"B", 0, 20, 40⟩] "B" 0)
    (List.mem_singleton.mpr rfl)

/-! ## Heat-index analysis

Auxiliary polynomials: at fixed temperature `t` (Fahrenheit) the Rothfusz
regression is quadratic in humidity `r`, with linear coefficient `gpoly t`
and quadratic coefficient `kpoly t`. -/

/-- Coefficient of `r` in the regression at fixed `t`. -/
def gpoly (t : ℚ) : ℚ :=
  1014333127 / 10 ^ 8 - (22475541 / 10 ^ 8) * t + (122874 / 10 ^ 8) * t ^ 2

/-- Coefficient of `r²` in the regression at fixed `t`. -/
def kpoly (t : ℚ) : ℚ :=
  -(5481717 / 10 ^ 8) + (85282 / 10 ^ 8) * t - (199 / 10 ^ 8) * t ^ 2

/-- The humidity difference of the regression at fixed temperature. -/
theorem hiRegressionF_diff (t r1 r2 : ℚ) :
    hiRegressionF t r2 - hiRegressionF t r1 =
      (r2 - r1) * (gpoly t + (r1 + r2) * kpoly t) := by
  unfold hiRegressionF gpoly kpoly
  ring

/-- The quadratic humidity coefficient is positive on the working range. -/
theorem kpoly_pos (t : ℚ) (h80 : 80 ≤ t) (h140 : t ≤ 140) : 0 < kpoly t := by
  unfold kpoly
  nlinarith [mul_nonneg (by linarith : (0:ℚ) ≤ t - 80) (by linarith : (0:ℚ) ≤ 349 - t)]

/-- `gpoly + 26·kpoly` is positive everywhere (negative discriminant). -/
theorem gk26_pos (t : ℚ) : 0 < gpoly t + 26 * kpoly t := by
  unfold gpoly kpoly
  nlinarith [sq_nonneg (235400 * t - 20258209)]

/-- Above 112 °F the linear humidity coefficient itself is positive. -/
theorem gpoly_pos_high (t : ℚ) (h : 112 ≤ t) : 0 < gpoly t := by
  unfold gpoly
  nlinarith [sq_nonneg (t - 112), sub_nonneg.mpr h]

/-- Global lower bound on the linear humidity coefficient. -/
theorem gpoly_lower (t : ℚ) : -(14 / 100) ≤ gpoly t := by
  unfold gpoly
  nlinarith [sq_nonneg (245748 * t - 22475541)]

/-- Quadratic certificate, low side of the dry window. -/
theorem dryq_low (t : ℚ) : (56 / 25) * (-gpoly t) + 2 / 10 ^ 6 ≤ (t - 78) / 17 := by
  unfold gpoly
  nlinarith [sq_nonneg (233952096 * t - 18896715032)]

/-- Quadratic certificate, high side of the dry window. -/
theorem dryq_high (t : ℚ) : (56 / 25) * (-gpoly t) + 2 / 10 ^ 6 ≤ (112 - t) / 17 := by
  unfold gpoly
  nlinarith [sq_nonneg (233952096 * t - 23896715032)]

/-- On the dry-correction window the square-root term compensates any
negative linear humidity coefficient: `gpoly t + s/4 ≥ 0` where `s` is the
square root inside the dry correction. -/
theorem dry_compensation (t : ℚ) (h80 : 80 ≤ t) (h112 : t ≤ 112) :
    0 ≤ gpoly t + ratSqrt ((17 - |t - 95|) / 17) / 4 := by
  have habs : |t - 95| ≤ 17 := by
    rw [abs_le]
    constructor <;> linarith
  have hq0 : 0 ≤ (17 - |t - 95|) / 17 := by
    have : 0 ≤ 17 - |t - 95| := by linarith
    positivity
  by_cases hg : 0 ≤ gpoly t
  · have := ratSqrt_nonneg ((17 - |t - 95|) / 17)
    linarith
  · push_neg at hg
    have hu : -gpoly t ≤ 14 / 100 := by linarith [gpoly_lower t]
    have hu0 : 0 ≤ -gpoly t := by linarith
    have hQ : (56 / 25) * (-gpoly t) + 2 / 10 ^ 6 ≤ (17 - |t - 95|) / 17 := by
      rcases le_total t 95 with hc | hc
      · have habs' : |t - 95| = 95 - t := by
          rw [abs_of_nonpos (by linarith)]
          ring
        rw [habs']
        calc (56 / 25) * (-gpoly t) + 2 / 10 ^ 6 ≤ (t - 78) / 17 := dryq_low t
          _ = (17 - (95 - t)) / 17 := by ring
      · have habs' : |t - 95| = t - 95 := abs_of_nonneg (by linarith)
        rw [habs']
        calc (56 / 25) * (-gpoly t) + 2 / 10 ^ 6 ≤ (112 - t) / 17 := dryq_high t
          _ = (17 - (t - 95)) / 17 := by ring
    have hkey : (-(4 * gpoly t) + 1 / 10 ^ 6) ^ 2 ≤ (17 - |t - 95|) / 17 := by
      nlinarith [mul_nonneg hu0 (by linarith : (0:ℚ) ≤ 14 / 100 - (-gpoly t)), hQ, hu0]
    have hlow := ratSqrt_lower ((17 - |t - 95|) / 17) (-(4 * gpoly t)) hq0
      (by linarith) hkey
    linarith

/-- On `r ≤ 13` inside the dry window the dry correction has a closed form
(zero at `r = 13` agrees with the out-of-window value). -/
theorem dryAdjF_of_le13 (t r : ℚ) (hr : r ≤ 13) (h80 : 80 ≤ t) (h112 : t ≤ 112) :
    dryAdjF t r = ((13 - r) / 4) * ratSqrt ((17 - |t - 95|) / 17) := by
  by_cases h : r < 13
  · rw [dryAdjF, if_pos ⟨h, h80, h112⟩]
  · have heq : r = 13 := le_antisymm hr (not_lt.mp h)
    rw [dryAdjF, if_neg (by intro hc; exact h hc.1), heq]
    ring

/-- The dry correction vanishes at or above 13 % humidity. -/
theorem dryAdjF_of_ge13 (t r : ℚ) (hr : 13 ≤ r) : dryAdjF t r = 0 := by
  rw [dryAdjF, if_neg]
  intro hc
  exact absurd hr (not_le.mpr hc.1)

/-- The dry correction vanishes above 112 °F. -/
theorem dryAdjF_of_gt112 (t r : ℚ) (ht : 112 < t) : dryAdjF t r = 0 := by
  rw [dryAdjF, if_neg]
  intro hc
  exact absurd hc.2.2 (not_le.mpr ht)

/-- The dry correction is nonnegative for nonnegative humidity. -/
theorem dryAdjF_nonneg (t r : ℚ) (h0 : 0 ≤ r) : 0 ≤ dryAdjF t r := by
  rw [dryAdjF]
  split_ifs with h
  · have hs := ratSqrt_nonneg ((17 - |t - 95|) / 17)
    have : 0 ≤ (13 - r) / 4 := by linarith [h.1]
    exact mul_nonneg this hs
  · exact le_refl 0

/-- A `ratSqrt` of a radicand at most 1 is at most 1. -/
theorem ratSqrt_le_one (q : ℚ) (h0 : 0 ≤ q) (h1 : q ≤ 1) : ratSqrt q ≤ 1 := by
  have hs0 := ratSqrt_nonneg q
  have hs2 := ratSqrt_sq_le q h0
  nlinarith

/-- The dry correction is at most 13/4 for humidity in `[0,100]`. -/
theorem dryAdjF_le (t r : ℚ) (h0 : 0 ≤ r) : dryAdjF t r ≤ 13 / 4 := by
  rw [dryAdjF]
  split_ifs with h
  · have habs : |t - 95| ≤ 17 := by
      rw [abs_le]
      constructor <;> linarith [h.2.1, h.2.2]
    have hq0 : 0 ≤ (17 - |t - 95|) / 17 := by
      have : 0 ≤ 17 - |t - 95| := by linarith
      positivity
    have hq1 : (17 - |t - 95|) / 17 ≤ 1 := by
      have := abs_nonneg (t - 95)
      rw [div_le_one (by norm_num : (0:ℚ) < 17)]
      linarith
    have hs1 := ratSqrt_le_one _ hq0 hq1
    have hs0 := ratSqrt_nonneg ((17 - |t - 95|) / 17)
    nlinarith
  · norm_num

/-- The humid correction is nonnegative. -/
theorem humidAdjF_nonneg (t r : ℚ) : 0 ≤ humidAdjF t r := by
  rw [humidAdjF]
  split_ifs with h
  · have h1 : 0 ≤ (r - 85) / 10 := by linarith [h.1]
    have h2 : 0 ≤ (87 - t) / 5 := by linarith [h.2.2]
    exact mul_nonneg h1 h2
  · exact le_refl 0

/-- The humid correction is at most 21/10 for humidity up to 100. -/
theorem humidAdjF_le (t r : ℚ) (h100 : r ≤ 100) : humidAdjF t r ≤ 21 / 10 := by
  rw [humidAdjF]
  split_ifs with h
  · have h1 : (r - 85) / 10 ≤ 3 / 2 := by linarith
    have h2 : (87 - t) / 5 ≤ 7 / 5 := by linarith [h.2.1]
    have h1' : 0 ≤ (r - 85) / 10 := by linarith [h.1]
    have h2' : 0 ≤ (87 - t) / 5 := by linarith [h.2.2]
    nlinarith
  · norm_num

/-- The humid correction is monotone non-decreasing in humidity. -/
theorem humidAdjF_mono (t r1 r2 : ℚ) (h12 : r1 ≤ r2) :
    humidAdjF t r1 ≤ humidAdjF t r2 := by
  by_cases hc : 85 < r1 ∧ 80 ≤ t ∧ t ≤ 87
  · rw [humidAdjF, if_pos hc, humidAdjF,
      if_pos ⟨lt_of_lt_of_le hc.1 h12, hc.2.1, hc.2.2⟩]
    have : 0 ≤ (87 - t) / 5 := by linarith [hc.2.2]
    nlinarith
  · rw [humidAdjF, if_neg hc]
    exact humidAdjF_nonneg t r2

/-- Monotonicity in humidity of regression-minus-dry-correction, both
humidities at most 13. -/
theorem full_core_mono_low (t r1 r2 : ℚ) (h80 : 80 ≤ t) (h140 : t ≤ 140)
    (h0 : 0 ≤ r1) (h12 : r1 ≤ r2) (h13 : r2 ≤ 13) :
    hiRegressionF t r1 - dryAdjF t r1 ≤ hiRegressionF t r2 - dryAdjF t r2 := by
  have hd := hiRegressionF_diff t r1 r2
  have hk := kpoly_pos t h80 h140
  by_cases ht : t ≤ 112
  · rw [dryAdjF_of_le13 t r1 (by linarith) h80 ht, dryAdjF_of_le13 t r2 h13 h80 ht]
    have hcomp := dry_compensation t h80 ht
    have e1 : 0 ≤ (r2 - r1) * (gpoly t + ratSqrt ((17 - |t - 95|) / 17) / 4) :=
      mul_nonneg (by linarith) hcomp
    have e2 : 0 ≤ (r2 - r1) * ((r1 + r2) * kpoly t) :=
      mul_nonneg (by linarith) (mul_nonneg (by linarith) (le_of_lt hk))
    nlinarith [e1, e2, hd]
  · push_neg at ht
    rw [dryAdjF_of_gt112 t r1 ht, dryAdjF_of_gt112 t r2 ht]
    have hg := gpoly_pos_high t (le_of_lt ht)
    have e1 : 0 ≤ (r2 - r1) * gpoly t := mul_nonneg (by linarith) (le_of_lt hg)
    have e2 : 0 ≤ (r2 - r1) * ((r1 + r2) * kpoly t) :=
      mul_nonneg (by linarith) (mul_nonneg (by linarith) (le_of_lt hk))
    nlinarith [e1, e2, hd]

/-- Monotonicity in humidity of regression-minus-dry-correction, both
humidities at least 13. -/
theorem full_core_mono_high (t r1 r2 : ℚ) (h80 : 80 ≤ t) (h140 : t ≤ 140)
    (h13 : 13 ≤ r1) (h12 : r1 ≤ r2) :
    hiRegressionF t r1 - dryAdjF t r1 ≤ hiRegressionF t r2 - dryAdjF t r2 := by
  have hd := hiRegressionF_diff t r1 r2
  have hk := kpoly_pos t h80 h140
  have hg26 := gk26_pos t
  rw [dryAdjF_of_ge13 t r1 h13, dryAdjF_of_ge13 t r2 (by linarith)]
  have e1 : 0 ≤ (r2 - r1) * (gpoly t + 26 * kpoly t) :=
    mul_nonneg (by linarith) (le_of_lt hg26)
  have e2 : 0 ≤ (r2 - r1) * ((r1 + r2 - 26) * kpoly t) :=
    mul_nonneg (by linarith) (mul_nonneg (by linarith) (le_of_lt hk))
  nlinarith [e1, e2, hd]

/-- Monotonicity in humidity of the full-regression branch. -/
theorem hiFull_mono (t r1 r2 : ℚ) (h80 : 80 ≤ t) (h140 : t ≤ 140)
    (h0 : 0 ≤ r1) (h12 : r1 ≤ r2) (h100 : r2 ≤ 100) :
    hiRegressionF t r1 - dryAdjF t r1 + humidAdjF t r1 ≤
      hiRegressionF t r2 - dryAdjF t r2 + humidAdjF t r2 := by
  have hhum := humidAdjF_mono t r1 r2 h12
  have hcore : hiRegressionF t r1 - dryAdjF t r1 ≤
      hiRegressionF t r2 - dryAdjF t r2 := by
    by_cases hc1 : r2 ≤ 13
    · exact full_core_mono_low t r1 r2 h80 h140 h0 h12 hc1
    · by_cases hc2 : 13 ≤ r1
      · exact full_core_mono_high t r1 r2 h80 h140 hc2 h12
      · push_neg at hc1 hc2
        have s1 := full_core_mono_low t r1 13 h80 h140 h0 (le_of_lt hc2) le_rfl
        have s2 := full_core_mono_high t 13 r2 h80 h140 le_rfl (le_of_lt hc1)
        linarith
  linarith

/-- `f2c` is monotone. -/
theorem f2c_mono (a b : ℚ) (h : a ≤ b) : f2c a ≤ f2c b := by
  rw [f2c, f2c]
  linarith

/-- Clamping to `[0,100]` is the identity on `[0,100]`. -/
theorem clampQ_id (r : ℚ) (h0 : 0 ≤ r) (h100 : r ≤ 100) : clampQ 0 100 r = r := by
  rw [clampQ, min_eq_right h100, max_eq_right h0]

/-- Explicit bounds for the regression polynomial on the working box. -/
theorem hiRegressionF_bounds (t r : ℚ) (h80 : 80 ≤ t) (h140 : t ≤ 140)
    (h0 : 0 ≤ r) (h100 : r ≤ 100) :
    -4270 ≤ hiRegressionF t r ∧ hiRegressionF t r ≤ 4870 := by
  have ht0 : (0:ℚ) ≤ t := by linarith
  have ht2 : t ^ 2 ≤ 19600 := by nlinarith
  have ht2n : 0 ≤ t ^ 2 := sq_nonneg t
  have hr2 : r ^ 2 ≤ 10000 := by nlinarith
  have hr2n : 0 ≤ r ^ 2 := sq_nonneg r
  have htr : t * r ≤ 14000 := by
    nlinarith [mul_nonneg (by linarith : (0:ℚ) ≤ 140 - t) h0]
  have htrn : 0 ≤ t * r := mul_nonneg ht0 h0
  have ht2r : t ^ 2 * r ≤ 1960000 := by
    nlinarith [mul_nonneg (by linarith : (0:ℚ) ≤ 19600 - t ^ 2) h0]
  have ht2rn : 0 ≤ t ^ 2 * r := mul_nonneg ht2n h0
  have htr2 : t * r ^ 2 ≤ 1400000 := by
    nlinarith [mul_nonneg (by linarith : (0:ℚ) ≤ 140 - t) hr2n]
  have htr2n : 0 ≤ t * r ^ 2 := mul_nonneg ht0 hr2n
  have ht2r2 : t ^ 2 * r ^ 2 ≤ 196000000 := by
    nlinarith [mul_nonneg (by linarith : (0:ℚ) ≤ 19600 - t ^ 2) hr2n]
  have ht2r2n : 0 ≤ t ^ 2 * r ^ 2 := mul_nonneg ht2n hr2n
  unfold hiRegressionF
  constructor <;> linarith

/-- C5 (amended): on the valid ranges (`tmax_c ∈ [-50,60]`,
`rh_percent ∈ [0,100]`) `heat_index_c` always returns a finite value —
bounded within explicit constants — and is monotonically non-decreasing in
`rh_percent` for every fixed `tmax_c`; it is monotonically non-decreasing
in `tmax_c` for every fixed `rh_percent` as long as the temperature stays
on the simplified-formula branch (`tmax_c < 80/3 °C`, i.e. below 80 °F).
Monotonicity in `tmax_c` across the simplified/full-regression branch
threshold fails (see `heat_index_not_monotone_cex`). -/
theorem heat_index_bounded_monotone :
    (∀ t r : ℚ, -50 ≤ t → t ≤ 60 → 0 ≤ r → r ≤ 100 →
        -2500 ≤ heat_index_c t r ∧ heat_index_c t r ≤ 2700) ∧
      (∀ t r1 r2 : ℚ, -50 ≤ t → t ≤ 60 → 0 ≤ r1 → r1 ≤ r2 → r2 ≤ 100 →
        heat_index_c t r1 ≤ heat_index_c t r2) ∧
      (∀ t1 t2 r : ℚ, t1 ≤ t2 → t2 < 80 / 3 → 0 ≤ r → r ≤ 100 →
        heat_index_c t1 r ≤ heat_index_c t2 r) := by
  refine ⟨?_, ?_, ?_⟩
  · intro t r ht1 ht2 hr0 hr1
    rw [heat_index_c, clampQ_id r hr0 hr1]
    by_cases hb : c2f t < 80
    · rw [if_pos hb]
      have hT1 : (-58:ℚ) ≤ c2f t := by rw [c2f]; linarith
      rw [f2c, hiSimpleF]
      constructor <;> linarith
    · push_neg at hb
      have hT2 : c2f t ≤ 140 := by rw [c2f]; linarith
      rw [if_neg (not_lt.mpr hb)]
      have hP := hiRegressionF_bounds (c2f t) r hb hT2 hr0 hr1
      have hd0 := dryAdjF_nonneg (c2f t) r hr0
      have hd1 := dryAdjF_le (c2f t) r hr0
      have hh0 := humidAdjF_nonneg (c2f t) r
      have hh1 := humidAdjF_le (c2f t) r hr1
      rw [f2c]
      constructor <;> linarith [hP.1, hP.2]
  · intro t r1 r2 ht1 ht2 h0 h12 h100
    rw [heat_index_c, heat_index_c, clampQ_id r1 h0 (le_trans h12 h100),
      clampQ_id r2 (le_trans h0 h12) h100]
    by_cases hb : c2f t < 80
    · rw [if_pos hb, if_pos hb, f2c, f2c, hiSimpleF, hiSimpleF]
      linarith
    · push_neg at hb
      have hT2 : c2f t ≤ 140 := by rw [c2f]; linarith
      rw [if_neg (not_lt.mpr hb), if_neg (not_lt.mpr hb)]
      exact f2c_mono _ _ (hiFull_mono (c2f t) r1 r2 hb hT2 h0 h12 h100)
  · intro t1 t2 r h12 hb2 h0 h100
    have hF2 : c2f t2 < 80 := by rw [c2f]; linarith
    have hF1 : c2f t1 < 80 := by
      rw [c2f]
      rw [c2f] at hF2
      linarith
    rw [heat_index_c, heat_index_c, clampQ_id r h0 h100, if_pos hF1, if_pos hF2,
      f2c, f2c, hiSimpleF, hiSimpleF, c2f, c2f]
    linarith

theorem heat_index_bounded_monotone_witness :
    (-2500 ≤ heat_index_c 30 50 ∧ heat_index_c 30 50 ≤ 2700) ∧
      heat_index_c 30 40 ≤ heat_index_c 30 50 ∧
      heat_index_c 20 50 ≤ heat_index_c 25 50 :=
  ⟨heat_index_bounded_monotone.1 30 50 (by norm_num) (by norm_num) (by norm_num)
      (by norm_num),
    heat_index_bounded_monotone.2.1 30 40 50 (by norm_num) (by norm_num)
      (by norm_num) (by norm_num) (by norm_num),
    heat_index_bounded_monotone.2.2 20 25 50 (by norm_num) (by norm_num)
      (by norm_num) (by norm_num)⟩

/-- C5 (counterexample): `heat_index_c` is not monotone in `tmax_c` on the
valid ranges.  At `rh_percent = 5`, raising `tmax_c` from 26.6 °C (still on
the simplified branch, 79.88 °F) to 26.7 °C (full regression with dry-air
correction, 80.06 °F) makes the heat index drop by about 0.29 °C. -/
theorem heat_index_not_monotone_cex :
    (133 : ℚ) / 5 ≤ 267 / 10 ∧ heat_index_c (267 / 10) 5 < heat_index_c (133 / 5) 5 := by
  have hs : (87:ℚ)/250 ≤ ratSqrt (103/850) :=
    ratSqrt_lower (103/850) (87/250) (by norm_num) (by norm_num) (by norm_num)
  have e1 : c2f (267/10) = (4003:ℚ)/50 := by rw [c2f]; norm_num
  have e2 : clampQ 0 100 (5:ℚ) = 5 := clampQ_id 5 (by norm_num) (by norm_num)
  have e3 : dryAdjF (4003/50) 5 = 2 * ratSqrt (103/850) := by
    rw [dryAdjF, if_pos ⟨by norm_num, by norm_num, by norm_num⟩]
    rw [show |(4003:ℚ)/50 - 95| = 747/50 by
      rw [abs_of_nonpos (by norm_num)]; norm_num]
    rw [show ((17:ℚ) - 747/50)/17 = 103/850 by norm_num]
    norm_num
  have e4 : humidAdjF (4003/50) 5 = 0 := by
    rw [humidAdjF, if_neg]
    intro hc
    have := hc.1
    norm_num at this
  have h267 : heat_index_c (267/10) 5 =
      f2c (hiRegressionF (4003/50) 5 - 2 * ratSqrt (103/850)) := by
    rw [heat_index_c, e1, if_neg (by norm_num : ¬ ((4003:ℚ)/50 < 80)), e2, e3, e4,
      add_zero]
  have hsimple : heat_index_c (133/5) 5 = f2c (hiSimpleF (1997/25) 5) := by
    rw [heat_index_c, show c2f (133/5) = (1997:ℚ)/25 by rw [c2f]; norm_num,
      if_pos (by norm_num : (1997:ℚ)/25 < 80), e2]
  refine ⟨by norm_num, ?_⟩
  rw [h267, hsimple]
  have hmono : f2c (hiRegressionF (4003/50) 5 - 2 * ratSqrt (103/850)) ≤
      f2c (hiRegressionF (4003/50) 5 - 2 * (87/250)) :=
    f2c_mono _ _ (by linarith)
  have hfinal : f2c (hiRegressionF (4003/50) 5 - 2 * (87/250)) <
      f2c (hiSimpleF (1997/25) 5) := by
    rw [f2c, f2c, hiRegressionF, hiSimpleF]
    norm_num
  linarith

end Heatwave
